import Mathlib

/-!
A shallow embedding of `progress.go` (package `restic`): the `Stat` value
type with its `Add` combinator and `String` formatter, and the `Progress`
lifecycle (`Start`, `Report`, `ReportFile`, `ReportDir`, `Reset`, `Done`,
`Current`, plus the background reporter tick).

Go `uint64` counters are modelled as `Nat` reduced modulo `2^64` at every
addition.  A Go panic is modelled as `Except.error`; a nil `*Progress`
receiver is modelled as `none : Option ProgressState`.  Callback slots
(`OnUpdate`, `OnDone`) are modelled by Booleans recording whether the slot
is non-nil, and every callback invocation is recorded as an `Event`, as is
the one-shot `close(p.cancel)`.  An interleaved execution of concurrent
callers is modelled as a sequence of atomic method calls (each counter
mutation happens under `curM` in the source, so method bodies are atomic
with respect to the counter).
-/

namespace Restic

/-- The uint64 modulus: Go counters wrap at `2^64`. -/
def U64 : Nat := 2 ^ 64

/-- `Stat` from progress.go: five unsigned counters. -/
@[ext]
structure Stat where
  Files : Nat
  Dirs : Nat
  Bytes : Nat
  Trees : Nat
  Blobs : Nat
deriving DecidableEq, Repr

/-- The Go zero value `Stat{}`. -/
def Stat.zero : Stat := { Files := 0, Dirs := 0, Bytes := 0, Trees := 0, Blobs := 0 }

/-- `Stat.Add` (progress.go lines 171-176): accumulates `other` into `s`,
adding only the `Bytes`, `Dirs` and `Files` fields (uint64 wrapping
addition); `Trees` and `Blobs` are left unchanged. -/
def Stat.add (s other : Stat) : Stat :=
  { s with
    Bytes := (s.Bytes + other.Bytes) % U64
    Dirs := (s.Dirs + other.Dirs) % U64
    Files := (s.Files + other.Files) % U64 }

/-- Renders `n < 1000` zero-padded to exactly three decimal digits, the
fractional part of a `%.3f` conversion. -/
def pad3 (n : Nat) : String :=
  if n < 10 then "00" ++ toString n
  else if n < 100 then "0" ++ toString n
  else toString n

/-- Models Go `fmt.Sprintf("%.3f", float64(num)/float64(den))` by exact
rational arithmetic: `num * 1000 / den` rounded half-to-even, rendered with
three digits after the decimal point.  For the byte counts considered in
the theorems below (all far below `2^53` and nowhere near a rounding tie)
this agrees with the float64 computation in the source. -/
def fmtFixed3 (num den : Nat) : String :=
  let scaled := num * 1000
  let q := scaled / den
  let r := scaled % den
  let m :=
    if den < 2 * r then q + 1
    else if 2 * r < den then q
    else if q % 2 = 0 then q else q + 1
  toString (m / 1000) ++ "." ++ pad3 (m % 1000)

/-- The byte-scaled string `str` computed inside `Stat.String`
(progress.go lines 178-193): a switch over `s.Bytes` with strict
greater-than thresholds at `1<<40`, `1<<30`, `1<<20`, `1<<10`, defaulting
to the raw byte count suffixed `B`. -/
def Stat.scaledStr (s : Stat) : String :=
  if 2 ^ 40 < s.Bytes then fmtFixed3 s.Bytes (2 ^ 40) ++ " TiB"
  else if 2 ^ 30 < s.Bytes then fmtFixed3 s.Bytes (2 ^ 30) ++ " GiB"
  else if 2 ^ 20 < s.Bytes then fmtFixed3 s.Bytes (2 ^ 20) ++ " MiB"
  else if 2 ^ 10 < s.Bytes then fmtFixed3 s.Bytes (2 ^ 10) ++ " KiB"
  else toString s.Bytes ++ "B"

/-- `Stat.String` (progress.go lines 178-197): the full
`Stat(%d files, %d dirs, %v)` rendering around the byte-scaled string. -/
def Stat.String (s : Stat) : String :=
  "Stat(" ++ toString s.Files ++ " files, " ++ toString s.Dirs ++ " dirs, "
    ++ s.scaledStr ++ ")"

/-- A Go runtime panic: either an explicit `panic(msg)` from the source or
a nil-pointer dereference. -/
inductive GoPanic where
  | message (msg : String)
  | nilDeref
deriving DecidableEq, Repr

/-- Observable events of a `Progress` execution: invocations of the
`OnUpdate` and `OnDone` callback slots (with the snapshot and the `ticker`
Boolean they receive) and the `close(p.cancel)` performed inside
`p.o.Do`. -/
inductive Event where
  | onUpdate (s : Stat) (isTick : Bool)
  | onDone (s : Stat) (isTick : Bool)
  | closeCancel
deriving DecidableEq, Repr

/-- True exactly on the `closeCancel` event. -/
def Event.isClose : Event → Bool
  | .closeCancel => true
  | _ => false

/-- True exactly on `onDone` events. -/
def Event.isOnDone : Event → Bool
  | .onDone _ _ => true
  | _ => false

/-- The mutable state of a (non-nil) `Progress` (progress.go lines 9-23):
whether each callback slot is non-nil, the accumulator `cur`, whether the
`cancel` channel has been closed, whether the `sync.Once` `o` has fired,
and the `running` flag.  The timestamp, the ticker handle and the interval
`d` do not influence any claim and are not modelled. -/
structure ProgressState where
  hasOnUpdate : Bool
  hasOnDone : Bool
  cur : Stat
  cancelClosed : Bool
  onceUsed : Bool
  running : Bool
deriving DecidableEq, Repr

/-- `NewProgress` (progress.go lines 39-41): all fields take their Go zero
values (nil callbacks, zero `Stat`, open channel state, not running). -/
def NewProgress : ProgressState :=
  { hasOnUpdate := false, hasOnDone := false, cur := Stat.zero
    cancelClosed := false, onceUsed := false, running := false }

/-- `Progress.Reset` (progress.go lines 122-134): no-op on nil, panics on
a non-running instance, otherwise zeroes the accumulator. -/
def Progress.Reset (p : Option ProgressState) :
    Except GoPanic (Option ProgressState × List Event) :=
  match p with
  | none => .ok (none, [])
  | some p =>
    if !p.running then .error (.message "resetting a non-running Progress")
    else .ok (some { p with cur := Stat.zero }, [])

/-- `Progress.Start` (progress.go lines 44-61): no-op on nil, panics on a
running instance, otherwise re-arms the `sync.Once`, replaces the cancel
channel with a fresh open one, marks running and calls `Reset` (the
timestamp, ticker and goroutine launch are not modelled). -/
def Progress.Start (p : Option ProgressState) :
    Except GoPanic (Option ProgressState × List Event) :=
  match p with
  | none => .ok (none, [])
  | some p =>
    if p.running then .error (.message "truing to reset a running Progress")
    else
      Progress.Reset (some { p with onceUsed := false, cancelClosed := false, running := true })

/-- `Progress.Report` (progress.go lines 65-85): no-op on nil, panics on a
non-running instance, otherwise adds the delta under the counter lock and,
when `OnUpdate` is non-nil, invokes it with the updated snapshot and
`ticker = false`. -/
def Progress.Report (p : Option ProgressState) (s : Stat) :
    Except GoPanic (Option ProgressState × List Event) :=
  match p with
  | none => .ok (none, [])
  | some p =>
    if !p.running then .error (.message "reporting in a non-running Progress")
    else
      let cur := p.cur.add s
      .ok (some { p with cur := cur },
        if p.hasOnUpdate then [.onUpdate cur false] else [])

/-- `Progress.ReportFile` (progress.go lines 88-90): reports a one-file
delta carrying the given size. -/
def Progress.ReportFile (p : Option ProgressState) (size : Nat) :
    Except GoPanic (Option ProgressState × List Event) :=
  Progress.Report p { Files := 1, Dirs := 0, Bytes := size, Trees := 0, Blobs := 0 }

/-- `Progress.ReportDir` (progress.go lines 93-95): reports a one-directory
delta. -/
def Progress.ReportDir (p : Option ProgressState) :
    Except GoPanic (Option ProgressState × List Event) :=
  Progress.Report p { Files := 0, Dirs := 1, Bytes := 0, Trees := 0, Blobs := 0 }

/-- `Progress.Done` (progress.go lines 137-160): no-op on nil, panics on a
non-running instance, otherwise clears `running`, closes the cancel
channel through the one-shot `sync.Once`, snapshots `cur` and, when
`OnDone` is non-nil, invokes it with that snapshot and `ticker = false`.
The inner `if p.running` of the source (always true after the panic
guard) is kept. -/
def Progress.Done (p : Option ProgressState) :
    Except GoPanic (Option ProgressState × List Event) :=
  match p with
  | none => .ok (none, [])
  | some p =>
    if !p.running then .error (.message "Done() called on non-running Progress")
    else if p.running then
      let closeEvs : List Event := if p.onceUsed then [] else [.closeCancel]
      let p1 : ProgressState :=
        { p with running := false, onceUsed := true
                 cancelClosed := if p.onceUsed then p.cancelClosed else true }
      .ok (some p1, closeEvs ++ (if p.hasOnDone then [.onDone p1.cur false] else []))
    else .ok (some p, [])

/-- `Progress.Current` (progress.go lines 163-169): copies the accumulator
under the counter lock.  There is no nil guard: on a nil receiver the
`p.curM.Lock()` dereferences the nil pointer and panics. -/
def Progress.Current (p : Option ProgressState) : Except GoPanic Stat :=
  match p with
  | none => .error .nilDeref
  | some p => .ok p.cur

/-- One firing of the ticker branch of `Progress.reporter` (progress.go
lines 102-113): snapshots `cur` under the counter lock and, when
`OnUpdate` is non-nil, invokes it with `ticker = true`; the state is
unchanged. -/
def Progress.tick (p : ProgressState) : ProgressState × List Event :=
  (p, if p.hasOnUpdate then [.onUpdate p.cur true] else [])

/-- One atomic step of an interleaved execution: a call to one of the
public methods, or a background ticker firing. -/
inductive Op where
  | start
  | report (s : Stat)
  | reportFile (size : Nat)
  | reportDir
  | reset
  | done
  | current
  | tick
deriving DecidableEq, Repr

/-- Runs one `Op` against a possibly-nil `Progress`. -/
def execOp (p : Option ProgressState) :
    Op → Except GoPanic (Option ProgressState × List Event)
  | .start => Progress.Start p
  | .report s => Progress.Report p s
  | .reportFile n => Progress.ReportFile p n
  | .reportDir => Progress.ReportDir p
  | .reset => Progress.Reset p
  | .done => Progress.Done p
  | .current =>
    match Progress.Current p with
    | .error e => .error e
    | .ok _ => .ok (p, [])
  | .tick =>
    match p with
    | none => .ok (none, [])
    | some p => .ok (some (Progress.tick p).1, (Progress.tick p).2)

/-- Runs a sequence of atomic steps, concatenating the emitted events; a
panic aborts the whole execution. -/
def exec (p : Option ProgressState) :
    List Op → Except GoPanic (Option ProgressState × List Event)
  | [] => .ok (p, [])
  | op :: ops =>
    match execOp p op with
    | .error e => .error e
    | .ok (p1, evs1) =>
      match exec p1 ops with
      | .error e => .error e
      | .ok (p2, evs2) => .ok (p2, evs1 ++ evs2)

/-- C10: `Current()` on a non-nil `Progress` never panics, in any lifecycle
state: it performs no running-state check and always returns the
accumulated total. -/
theorem C10_current_never_panics (p : ProgressState) :
    Progress.Current (some p) = .ok p.cur := rfl

/-- C4 (confirmed as amended reading of the source): over the accumulated
fields, `Stat.add` applied twice commutes and associates — adding `b` then
`c` into `a` gives the same `Files`, `Dirs` and `Bytes` as adding `c` then
`b`, and as adding the combination `b.add c` — and only those three fields
participate: `Trees` and `Blobs` of `a.add b` are exactly those of `a`. -/
theorem C4_add_comm_assoc (a b c : Stat) :
    ((a.add b).add c).Files = ((a.add c).add b).Files ∧
    ((a.add b).add c).Dirs = ((a.add c).add b).Dirs ∧
    ((a.add b).add c).Bytes = ((a.add c).add b).Bytes ∧
    ((a.add b).add c).Files = (a.add (b.add c)).Files ∧
    ((a.add b).add c).Dirs = (a.add (b.add c)).Dirs ∧
    ((a.add b).add c).Bytes = (a.add (b.add c)).Bytes ∧
    (a.add b).Trees = a.Trees ∧ (a.add b).Blobs = a.Blobs := by
  refine ⟨?_, ?_, ?_, ?_, ?_, ?_, rfl, rfl⟩ <;>
    · simp only [Stat.add, U64]
      omega

/-- C2 counterexample: a `Stat` with `Bytes` exactly `1<<30` does not fall
to the KiB branch — the strict comparisons route it to the MiB branch,
formatting as `1024.000 MiB`. -/
theorem C2_boundary_counterexample :
    Stat.scaledStr { Stat.zero with Bytes := 2 ^ 30 } = "1024.000 MiB" ∧
    Stat.scaledStr { Stat.zero with Bytes := 2 ^ 30 } ≠ "1048576.000 KiB" ∧
    Stat.scaledStr { Stat.zero with Bytes := 2 ^ 30 } ≠ "1.000 GiB" := by
  refine ⟨rfl, by decide, by decide⟩

/-- C2 as amended: the byte-scaled part of `Stat.String` renders
`Bytes = 500` as `500B`, `2048` as `2.000 KiB`, `1<<30 + 1` as
`1.000 GiB`; the strict greater-than boundary sends `Bytes` exactly
`1<<30` to the MiB branch (`1024.000 MiB`), not GiB and not KiB.  The
surrounding `Stat.String` wrapper is also evaluated once. -/
theorem C2_formatting :
    Stat.scaledStr { Stat.zero with Bytes := 500 } = "500B" ∧
    Stat.scaledStr { Stat.zero with Bytes := 2048 } = "2.000 KiB" ∧
    Stat.scaledStr { Stat.zero with Bytes := 2 ^ 30 + 1 } = "1.000 GiB" ∧
    Stat.scaledStr { Stat.zero with Bytes := 2 ^ 30 } = "1024.000 MiB" ∧
    Stat.String { Stat.zero with Bytes := 500 } = "Stat(0 files, 0 dirs, 500B)" := by
  refine ⟨rfl, rfl, rfl, rfl, rfl⟩

/-- A state with only the `running` flag raised: what a caller holds right
after `NewProgress(d)` followed by `Start()` when both callback slots are
nil. -/
def runningP : ProgressState := { NewProgress with running := true }

/-- The delta `Stat{Bytes: 1}` of a one-byte report. -/
def oneByte : Stat := { Files := 0, Dirs := 0, Bytes := 1, Trees := 0, Blobs := 0 }

/-- C3 counterexample: `Current()` on a nil `Progress` is not nil-safe —
`p.curM.Lock()` dereferences the nil receiver and panics instead of
returning the zero `Stat`. -/
theorem C3_nil_current_counterexample :
    Progress.Current none = .error GoPanic.nilDeref := rfl

/-- C3 as amended: `Start`, `Report`, `ReportFile`, `ReportDir`, `Reset`
and `Done` on a nil `Progress` are no-ops that do not panic, but the
accessor `Current()` has no nil guard and panics with a nil-pointer
dereference rather than returning the zero `Stat`. -/
theorem C3_nil_methods (s : Stat) (n : Nat) :
    Progress.Start none = .ok (none, []) ∧
    Progress.Report none s = .ok (none, []) ∧
    Progress.ReportFile none n = .ok (none, []) ∧
    Progress.ReportDir none = .ok (none, []) ∧
    Progress.Reset none = .ok (none, []) ∧
    Progress.Done none = .ok (none, []) ∧
    Progress.Current none = .error GoPanic.nilDeref :=
  ⟨rfl, rfl, rfl, rfl, rfl, rfl, rfl⟩

/-- C6: on a non-nil instance that is not running — in particular one on
which `Start()` has never been called — `Report`, `Reset` and `Done` all
panic with their respective messages. -/
theorem C6_before_start_fatal (p : ProgressState) (s : Stat)
    (h : p.running = false) :
    Progress.Report (some p) s = .error (.message "reporting in a non-running Progress") ∧
    Progress.Reset (some p) = .error (.message "resetting a non-running Progress") ∧
    Progress.Done (some p) = .error (.message "Done() called on non-running Progress") := by
  refine ⟨?_, ?_, ?_⟩ <;> simp [Progress.Report, Progress.Reset, Progress.Done, h]

/-- C6 witness: the fresh `NewProgress` state is not running and all three
calls panic on it. -/
theorem C6_before_start_fatal_witness :
    NewProgress.running = false ∧
    (Progress.Report (some NewProgress) oneByte =
        .error (.message "reporting in a non-running Progress") ∧
      Progress.Reset (some NewProgress) =
        .error (.message "resetting a non-running Progress") ∧
      Progress.Done (some NewProgress) =
        .error (.message "Done() called on non-running Progress")) :=
  ⟨rfl, C6_before_start_fatal NewProgress oneByte rfl⟩

/-- C7: on a non-running instance `Start()` succeeds and leaves the
accumulator at the zero `Stat` (so `Current()` right after `Start()` is
zero), a second `Start()` without an intervening `Done()` panics, and
`Reset()` after `Start()` also leaves `Current()` at zero. -/
theorem C7_start_twice_fatal (p : ProgressState) (h : p.running = false) :
    ∃ p1, Progress.Start (some p) = .ok (some p1, []) ∧
      Progress.Current (some p1) = .ok Stat.zero ∧
      Progress.Start (some p1) = .error (.message "truing to reset a running Progress") ∧
      ∃ p2, Progress.Reset (some p1) = .ok (some p2, []) ∧
        Progress.Current (some p2) = .ok Stat.zero := by
  have hstart : Progress.Start (some p) =
      .ok (some { p with
                    onceUsed := false, cancelClosed := false, running := true,
                    cur := Stat.zero }, []) := by
    simp [Progress.Start, Progress.Reset, h]
  exact ⟨_, hstart, rfl, rfl, _, rfl, rfl⟩

/-- C7 witness: instantiated at the fresh `NewProgress` state. -/
theorem C7_start_twice_fatal_witness :
    NewProgress.running = false ∧
    (∃ p1, Progress.Start (some NewProgress) = .ok (some p1, []) ∧
      Progress.Current (some p1) = .ok Stat.zero ∧
      Progress.Start (some p1) = .error (.message "truing to reset a running Progress") ∧
      ∃ p2, Progress.Reset (some p1) = .ok (some p2, []) ∧
        Progress.Current (some p2) = .ok Stat.zero) :=
  ⟨rfl, C7_start_twice_fatal NewProgress rfl⟩

/-- C5 counterexample: `Start(); Done(); Start()` on a fresh instance
executes without any panic — the second `Start()` after `Done()` succeeds
and restarts the instance, so the stopped state is not terminal. -/
theorem C5_restart_counterexample :
    exec (some NewProgress) [Op.start, Op.done, Op.start] =
      .ok (some { hasOnUpdate := false, hasOnDone := false, cur := Stat.zero,
                  cancelClosed := false, onceUsed := false, running := true },
        [Event.closeCancel]) := rfl

/-- C5 as amended: after `Done()` the instance is stopped and reporting
into it (`Report`, `ReportFile`, `ReportDir`) panics, but `Start()` on the
stopped instance succeeds and marks it running again — the stopped state
is terminal only for reporting, not for restart. -/
theorem C5_stopped_reporting_fatal (p : ProgressState) (s : Stat) (size : Nat)
    (h : p.running = true) :
    ∃ p1 evs, Progress.Done (some p) = .ok (some p1, evs) ∧ p1.running = false ∧
      Progress.Report (some p1) s = .error (.message "reporting in a non-running Progress") ∧
      Progress.ReportFile (some p1) size = .error (.message "reporting in a non-running Progress") ∧
      Progress.ReportDir (some p1) = .error (.message "reporting in a non-running Progress") ∧
      ∃ p2 evs2, Progress.Start (some p1) = .ok (some p2, evs2) ∧ p2.running = true := by
  have hdone : Progress.Done (some p) =
      .ok (some { p with
                    running := false, onceUsed := true,
                    cancelClosed := if p.onceUsed then p.cancelClosed else true },
        (if p.onceUsed then [] else [Event.closeCancel]) ++
          (if p.hasOnDone then [Event.onDone p.cur false] else [])) := by
    simp [Progress.Done, h]
  refine ⟨_, _, hdone, rfl, ?_, ?_, ?_,
    ⟨{ p with
         running := true, onceUsed := false, cancelClosed := false,
         cur := Stat.zero }, [], ?_, rfl⟩⟩ <;>
    simp [Progress.Report, Progress.ReportFile, Progress.ReportDir,
      Progress.Start, Progress.Reset]

/-- C5 witness: instantiated at a running instance. -/
theorem C5_stopped_reporting_fatal_witness :
    runningP.running = true ∧
    (∃ p1 evs, Progress.Done (some runningP) = .ok (some p1, evs) ∧ p1.running = false ∧
      Progress.Report (some p1) oneByte =
        .error (.message "reporting in a non-running Progress") ∧
      Progress.ReportFile (some p1) 7 =
        .error (.message "reporting in a non-running Progress") ∧
      Progress.ReportDir (some p1) =
        .error (.message "reporting in a non-running Progress") ∧
      ∃ p2 evs2, Progress.Start (some p1) = .ok (some p2, evs2) ∧ p2.running = true) :=
  ⟨rfl, C5_stopped_reporting_fatal runningP oneByte 7 rfl⟩

/-- A single `Report` on a running instance: updates the accumulator and
emits the non-tick update event when the `OnUpdate` slot is non-nil. -/
theorem report_ok (p : ProgressState) (s : Stat) (hp : p.running = true) :
    Progress.Report (some p) s =
      .ok (some { p with cur := p.cur.add s },
        if p.hasOnUpdate then [Event.onUpdate (p.cur.add s) false] else []) := by
  simp [Progress.Report, hp]

/-- Running a list of `Report` calls on a running instance: every call
succeeds, the accumulator folds `Stat.add` over the deltas, every other
field is unchanged, and the instance stays running. -/
theorem exec_reports (ds : List Stat) :
    ∀ p : ProgressState, p.running = true →
      ∃ evs, exec (some p) (ds.map Op.report) =
        .ok (some { p with cur := ds.foldl Stat.add p.cur }, evs) := by
  induction ds with
  | nil => exact fun p _ => ⟨[], rfl⟩
  | cons d ds ih =>
    intro p hp
    obtain ⟨evs, hevs⟩ := ih { p with cur := p.cur.add d } hp
    refine ⟨(if p.hasOnUpdate then [Event.onUpdate (p.cur.add d) false] else []) ++ evs, ?_⟩
    simp only [List.map_cons, exec, execOp, report_ok p d hp, hevs, List.foldl_cons]

/-- Folding `Stat.add` over a list of deltas: each accumulated field is
the sum of that field over the deltas, modulo `2^64`, on top of the start
value; `Trees` and `Blobs` never move. -/
theorem foldl_add_spec (ds : List Stat) :
    ∀ z : Stat, z.Files < U64 → z.Dirs < U64 → z.Bytes < U64 →
      (ds.foldl Stat.add z).Files = (z.Files + (ds.map Stat.Files).sum) % U64 ∧
      (ds.foldl Stat.add z).Dirs = (z.Dirs + (ds.map Stat.Dirs).sum) % U64 ∧
      (ds.foldl Stat.add z).Bytes = (z.Bytes + (ds.map Stat.Bytes).sum) % U64 ∧
      (ds.foldl Stat.add z).Trees = z.Trees ∧
      (ds.foldl Stat.add z).Blobs = z.Blobs := by
  induction ds with
  | nil =>
    intro z hF hD hB
    simp [Nat.mod_eq_of_lt, hF, hD, hB]
  | cons d ds ih =>
    intro z hF hD hB
    have hU : 0 < U64 := by norm_num [U64]
    obtain ⟨f, d2, b, t, bl⟩ :=
      ih (z.add d) (Nat.mod_lt _ hU) (Nat.mod_lt _ hU) (Nat.mod_lt _ hU)
    refine ⟨?_, ?_, ?_, ?_, ?_⟩
    · rw [List.foldl_cons, f]
      simp only [Stat.add, List.map_cons, List.sum_cons]
      rw [Nat.mod_add_mod, Nat.add_assoc]
    · rw [List.foldl_cons, d2]
      simp only [Stat.add, List.map_cons, List.sum_cons]
      rw [Nat.mod_add_mod, Nat.add_assoc]
    · rw [List.foldl_cons, b]
      simp only [Stat.add, List.map_cons, List.sum_cons]
      rw [Nat.mod_add_mod, Nat.add_assoc]
    · rw [List.foldl_cons, t]
      simp [Stat.add]
    · rw [List.foldl_cons, bl]
      simp [Stat.add]

/-- C1: on a running instance whose accumulator sits at its just-`Reset`
value (the zero `Stat`), a sequence of `Report` calls with deltas `ds`
leaves `Current()` at the pointwise sum of the deltas over `Files`,
`Dirs` and `Bytes` (sums assumed below the uint64 wrap), while `Trees`
and `Blobs` stay at their value from the last `Reset`, namely `0` — they
are never accumulated through `Report`. -/
theorem C1_report_sums (p : ProgressState) (ds : List Stat)
    (hrun : p.running = true) (hcur : p.cur = Stat.zero)
    (hF : (ds.map Stat.Files).sum < U64)
    (hD : (ds.map Stat.Dirs).sum < U64)
    (hB : (ds.map Stat.Bytes).sum < U64) :
    ∃ pf evs, exec (some p) (ds.map Op.report) = .ok (some pf, evs) ∧
      Progress.Current (some pf) =
        .ok { Files := (ds.map Stat.Files).sum, Dirs := (ds.map Stat.Dirs).sum,
              Bytes := (ds.map Stat.Bytes).sum, Trees := 0, Blobs := 0 } := by
  obtain ⟨evs, hevs⟩ := exec_reports ds p hrun
  rw [hcur] at hevs
  refine ⟨_, evs, hevs, ?_⟩
  obtain ⟨f, d2, b, t, bl⟩ := foldl_add_spec ds Stat.zero
    (by norm_num [Stat.zero, U64]) (by norm_num [Stat.zero, U64])
    (by norm_num [Stat.zero, U64])
  show Except.ok (ds.foldl Stat.add Stat.zero) = _
  congr 1
  ext
  · rw [f]; simp [Stat.zero, Nat.mod_eq_of_lt hF]
  · rw [d2]; simp [Stat.zero, Nat.mod_eq_of_lt hD]
  · rw [b]; simp [Stat.zero, Nat.mod_eq_of_lt hB]
  · rw [t]; simp [Stat.zero]
  · rw [bl]; simp [Stat.zero]

/-- C1 witness: two concrete deltas; their `Trees`/`Blobs` components are
visibly dropped from the final total. -/
theorem C1_report_sums_witness :
    runningP.running = true ∧ runningP.cur = Stat.zero ∧
    (([⟨1, 2, 3, 4, 5⟩, ⟨10, 20, 30, 40, 50⟩] : List Stat).map Stat.Files).sum < U64 ∧
    (([⟨1, 2, 3, 4, 5⟩, ⟨10, 20, 30, 40, 50⟩] : List Stat).map Stat.Dirs).sum < U64 ∧
    (([⟨1, 2, 3, 4, 5⟩, ⟨10, 20, 30, 40, 50⟩] : List Stat).map Stat.Bytes).sum < U64 ∧
    (∃ pf evs,
      exec (some runningP) (([⟨1, 2, 3, 4, 5⟩, ⟨10, 20, 30, 40, 50⟩] : List Stat).map Op.report) =
        .ok (some pf, evs) ∧
      Progress.Current (some pf) =
        .ok { Files := 11, Dirs := 22, Bytes := 33, Trees := 0, Blobs := 0 }) :=
  ⟨rfl, rfl, by decide, by decide, by decide,
    C1_report_sums runningP _ rfl rfl (by decide) (by decide) (by decide)⟩

/-- A state with both callback slots assigned and the `running` flag
raised: what a caller holds after assigning `OnUpdate` and `OnDone` on a
fresh instance and calling `Start()`. -/
def runningCb : ProgressState :=
  { NewProgress with hasOnUpdate := true, hasOnDone := true, running := true }

/-- A batch of `OnUpdate` events (from `Report` or a tick) contains no
cancel close and no `OnDone` invocation. -/
theorem filter_update_nil (b : Bool) (s : Stat) (t : Bool) :
    (if b then [Event.onUpdate s t] else []).filter Event.isClose = [] ∧
    (if b then [Event.onUpdate s t] else []).filter Event.isOnDone = [] := by
  cases b <;> simp [Event.isClose, Event.isOnDone]

/-- Unfolding of `exec` on a non-empty schedule: the head op succeeds and
the tail executes from its post-state, events concatenating. -/
theorem exec_cons_ok (p : Option ProgressState) (op : Op) (ops : List Op)
    (pf : Option ProgressState) (evs : List Event) :
    exec p (op :: ops) = .ok (pf, evs) ↔
      ∃ p1 evs1 evs2, execOp p op = .ok (p1, evs1) ∧
        exec p1 ops = .ok (pf, evs2) ∧ evs = evs1 ++ evs2 := by
  constructor
  · intro h
    cases h1 : execOp p op with
    | error e => simp [exec, h1] at h
    | ok v =>
      obtain ⟨p1, evs1⟩ := v
      cases h2 : exec p1 ops with
      | error e => simp [exec, h1, h2] at h
      | ok w =>
        obtain ⟨p2, evs2⟩ := w
        simp only [exec, h1, h2, Except.ok.injEq, Prod.mk.injEq] at h
        obtain ⟨rfl, rfl⟩ := h
        exact ⟨p1, evs1, evs2, rfl, h2, rfl⟩
  · rintro ⟨p1, evs1, evs2, h1, h2, rfl⟩
    simp [exec, h1, h2]

/-- `Done` on a running instance with the one-shot guard still armed and a
non-nil `OnDone` slot: stops the instance, closes the cancel channel and
invokes the completion callback with the current total and
`isTick = false`. -/
theorem done_ok (p : ProgressState) (hp : p.running = true)
    (ho : p.onceUsed = false) (hd : p.hasOnDone = true) :
    Progress.Done (some p) =
      .ok (some { p with running := false, onceUsed := true, cancelClosed := true },
        [Event.closeCancel, Event.onDone p.cur false]) := by
  simp [Progress.Done, hp, ho, hd]

/-- Any single op other than `Start` and `Done`, run on a running
instance, succeeds (or is `Current`/a tick), keeps the instance running,
leaves the one-shot guard and the `OnDone` slot as they were, and emits
neither a close nor an `OnDone` event. -/
theorem step_preserve (p : ProgressState) (op : Op) (p1 : Option ProgressState)
    (evs1 : List Event) (h1 : p.running = true)
    (hop : execOp (some p) op = .ok (p1, evs1))
    (hns : op ≠ Op.start) (hnd : op ≠ Op.done) :
    ∃ p' : ProgressState, p1 = some p' ∧ p'.running = true ∧
      p'.onceUsed = p.onceUsed ∧ p'.hasOnDone = p.hasOnDone ∧
      evs1.filter Event.isClose = [] ∧ evs1.filter Event.isOnDone = [] := by
  cases op with
  | start => exact absurd rfl hns
  | done => exact absurd rfl hnd
  | report s =>
    rw [show execOp (some p) (Op.report s) = Progress.Report (some p) s from rfl,
      report_ok p s h1] at hop
    simp only [Except.ok.injEq, Prod.mk.injEq] at hop
    obtain ⟨rfl, rfl⟩ := hop
    exact ⟨_, rfl, h1, rfl, rfl, (filter_update_nil _ _ _).1, (filter_update_nil _ _ _).2⟩
  | reportFile n =>
    rw [show execOp (some p) (Op.reportFile n) =
        Progress.Report (some p) { Files := 1, Dirs := 0, Bytes := n, Trees := 0, Blobs := 0 }
      from rfl, report_ok p _ h1] at hop
    simp only [Except.ok.injEq, Prod.mk.injEq] at hop
    obtain ⟨rfl, rfl⟩ := hop
    exact ⟨_, rfl, h1, rfl, rfl, (filter_update_nil _ _ _).1, (filter_update_nil _ _ _).2⟩
  | reportDir =>
    rw [show execOp (some p) Op.reportDir =
        Progress.Report (some p) { Files := 0, Dirs := 1, Bytes := 0, Trees := 0, Blobs := 0 }
      from rfl, report_ok p _ h1] at hop
    simp only [Except.ok.injEq, Prod.mk.injEq] at hop
    obtain ⟨rfl, rfl⟩ := hop
    exact ⟨_, rfl, h1, rfl, rfl, (filter_update_nil _ _ _).1, (filter_update_nil _ _ _).2⟩
  | reset =>
    have hreset : Progress.Reset (some p) = .ok (some { p with cur := Stat.zero }, []) := by
      simp [Progress.Reset, h1]
    rw [show execOp (some p) Op.reset = Progress.Reset (some p) from rfl, hreset] at hop
    simp only [Except.ok.injEq, Prod.mk.injEq] at hop
    obtain ⟨rfl, rfl⟩ := hop
    exact ⟨_, rfl, h1, rfl, rfl, rfl, rfl⟩
  | current =>
    simp only [execOp, Progress.Current] at hop
    simp only [Except.ok.injEq, Prod.mk.injEq] at hop
    obtain ⟨rfl, rfl⟩ := hop
    exact ⟨p, rfl, h1, rfl, rfl, rfl, rfl⟩
  | tick =>
    simp only [execOp, Progress.tick] at hop
    simp only [Except.ok.injEq, Prod.mk.injEq] at hop
    obtain ⟨rfl, rfl⟩ := hop
    exact ⟨p, rfl, h1, rfl, rfl, (filter_update_nil _ _ _).1, (filter_update_nil _ _ _).2⟩

/-- After the instance has stopped, with restarts excluded, only
`Current` and ticks can still execute without panicking; they leave the
state untouched and emit neither a close nor an `OnDone` event. -/
theorem exec_stopped (ops : List Op) :
    ∀ p : ProgressState, p.running = false → Op.start ∉ ops →
      ∀ pf evs, exec (some p) ops = .ok (pf, evs) →
        pf = some p ∧ evs.filter Event.isClose = [] ∧ evs.filter Event.isOnDone = [] := by
  induction ops with
  | nil =>
    intro p hp hs pf evs h
    simp only [exec, Except.ok.injEq, Prod.mk.injEq] at h
    obtain ⟨rfl, rfl⟩ := h
    exact ⟨rfl, rfl, rfl⟩
  | cons op ops ih =>
    intro p hp hs pf evs h
    have hs1 : op ≠ Op.start := fun he => hs (by simp [he])
    have hs2 : Op.start ∉ ops := fun he => hs (List.mem_cons_of_mem op he)
    rw [exec_cons_ok] at h
    obtain ⟨p1, evs1, evs2, hop, hrest, rfl⟩ := h
    cases op with
    | start => exact absurd rfl hs1
    | report s => simp [execOp, Progress.Report, hp] at hop
    | reportFile n => simp [execOp, Progress.ReportFile, Progress.Report, hp] at hop
    | reportDir => simp [execOp, Progress.ReportDir, Progress.Report, hp] at hop
    | reset => simp [execOp, Progress.Reset, hp] at hop
    | done => simp [execOp, Progress.Done, hp] at hop
    | current =>
      simp only [execOp, Progress.Current] at hop
      simp only [Except.ok.injEq, Prod.mk.injEq] at hop
      obtain ⟨rfl, rfl⟩ := hop
      obtain ⟨hpf, hc, hod⟩ := ih p hp hs2 pf evs2 hrest
      exact ⟨hpf, by simp [hc], by simp [hod]⟩
    | tick =>
      simp only [execOp, Progress.tick] at hop
      simp only [Except.ok.injEq, Prod.mk.injEq] at hop
      obtain ⟨rfl, rfl⟩ := hop
      obtain ⟨hpf, hc, hod⟩ := ih p hp hs2 pf evs2 hrest
      refine ⟨hpf, ?_, ?_⟩
      · simp [List.filter_append, hc, (filter_update_nil _ _ _).1]
      · simp [List.filter_append, hod, (filter_update_nil _ _ _).2]

/-- Execution of one run after `Start`: from a running state whose
one-shot guard is armed and whose `OnDone` slot is non-nil, with restarts
excluded, the cancel channel is closed exactly once when the schedule
contains a `Done` and never otherwise, and the completion callback fires
exactly once per run, with `isTick = false` and the final total. -/
theorem exec_running (ops : List Op) :
    ∀ p : ProgressState, p.running = true → p.onceUsed = false →
      p.hasOnDone = true → Op.start ∉ ops →
      ∀ pf evs, exec (some p) ops = .ok (pf, evs) →
        (Op.done ∉ ops →
          ∃ q, pf = some q ∧ q.running = true ∧ q.onceUsed = false ∧
            q.hasOnDone = true ∧
            evs.filter Event.isClose = [] ∧ evs.filter Event.isOnDone = []) ∧
        (Op.done ∈ ops →
          ∃ q, pf = some q ∧ q.running = false ∧
            evs.filter Event.isClose = [Event.closeCancel] ∧
            evs.filter Event.isOnDone = [Event.onDone q.cur false]) := by
  induction ops with
  | nil =>
    intro p h1 h2 h3 _ pf evs h
    simp only [exec, Except.ok.injEq, Prod.mk.injEq] at h
    obtain ⟨rfl, rfl⟩ := h
    exact ⟨fun _ => ⟨p, rfl, h1, h2, h3, rfl, rfl⟩, fun hd => absurd hd (by simp)⟩
  | cons op ops ih =>
    intro p h1 h2 h3 hs pf evs h
    have hs1 : op ≠ Op.start := fun he => hs (by simp [he])
    have hs2 : Op.start ∉ ops := fun he => hs (List.mem_cons_of_mem op he)
    rw [exec_cons_ok] at h
    obtain ⟨p1, evs1, evs2, hop, hrest, rfl⟩ := h
    by_cases hdop : op = Op.done
    · subst hdop
      rw [show execOp (some p) Op.done = Progress.Done (some p) from rfl,
        done_ok p h1 h2 h3] at hop
      simp only [Except.ok.injEq, Prod.mk.injEq] at hop
      obtain ⟨rfl, rfl⟩ := hop
      obtain ⟨hpf, hc, hod⟩ := exec_stopped ops _ rfl hs2 pf evs2 hrest
      refine ⟨fun hnd => absurd (List.mem_cons_self _ _) hnd, fun _ => ⟨_, hpf, rfl, ?_, ?_⟩⟩
      · simp [List.filter_append, hc, Event.isClose, Event.isOnDone]
      · simp [List.filter_append, hod, Event.isClose, Event.isOnDone]
    · obtain ⟨p', rfl, hr', ho', hd', hcl, hodl⟩ :=
        step_preserve p op p1 evs1 h1 hop hs1 hdop
      have hres := ih p' hr' (ho'.trans h2) (hd'.trans h3) hs2 pf evs2 hrest
      constructor
      · intro hnd
        have hnd2 : Op.done ∉ ops := fun hm => hnd (List.mem_cons_of_mem _ hm)
        obtain ⟨q, hq, hr, ho2, hd2, hc, hod⟩ := hres.1 hnd2
        refine ⟨q, hq, hr, ho2, hd2, ?_, ?_⟩
        · simp [List.filter_append, hcl, hc]
        · simp [List.filter_append, hodl, hod]
      · intro hmem
        have hmem2 : Op.done ∈ ops := by
          rcases List.mem_cons.mp hmem with he | he
          · exact absurd he.symm hdop
          · exact he
        obtain ⟨q, hq, hr, hc2, hod2⟩ := hres.2 hmem2
        refine ⟨q, hq, hr, ?_, ?_⟩
        · simp [List.filter_append, hcl, hc2]
        · simp [List.filter_append, hodl, hod2]

/-- C8: per run (from a freshly started state, with restarts excluded and
the `OnDone` slot non-nil), any panic-free interleaving of reports, ticks,
reads and shutdown that contains a `Done` closes the cancel channel
exactly once and invokes the completion callback exactly once, with the
final accumulated snapshot and `isTick = false`. -/
theorem C8_close_and_ondone_once (p : ProgressState) (ops : List Op)
    (h1 : p.running = true) (h2 : p.onceUsed = false) (h3 : p.hasOnDone = true)
    (hs : Op.start ∉ ops) (hd : Op.done ∈ ops)
    (pf : Option ProgressState) (evs : List Event)
    (h : exec (some p) ops = .ok (pf, evs)) :
    ∃ q, pf = some q ∧ q.running = false ∧
      evs.filter Event.isClose = [Event.closeCancel] ∧
      evs.filter Event.isOnDone = [Event.onDone q.cur false] :=
  (exec_running ops p h1 h2 h3 hs pf evs h).2 hd

/-- C8 witness: a report, the shutdown, then one last in-flight tick. -/
theorem C8_close_and_ondone_once_witness :
    runningCb.running = true ∧ runningCb.onceUsed = false ∧
    runningCb.hasOnDone = true ∧
    Op.start ∉ [Op.report oneByte, Op.done, Op.tick] ∧
    Op.done ∈ [Op.report oneByte, Op.done, Op.tick] ∧
    exec (some runningCb) [Op.report oneByte, Op.done, Op.tick] =
      .ok (some { runningCb with
                    cur := { Files := 0, Dirs := 0, Bytes := 1, Trees := 0, Blobs := 0 },
                    cancelClosed := true, onceUsed := true, running := false },
        [Event.onUpdate { Files := 0, Dirs := 0, Bytes := 1, Trees := 0, Blobs := 0 } false,
          Event.closeCancel,
          Event.onDone { Files := 0, Dirs := 0, Bytes := 1, Trees := 0, Blobs := 0 } false,
          Event.onUpdate { Files := 0, Dirs := 0, Bytes := 1, Trees := 0, Blobs := 0 } true]) ∧
    (∃ q, (some { runningCb with
                    cur := { Files := 0, Dirs := 0, Bytes := 1, Trees := 0, Blobs := 0 },
                    cancelClosed := true, onceUsed := true, running := false } :
            Option ProgressState) = some q ∧
      q.running = false ∧
      ([Event.onUpdate { Files := 0, Dirs := 0, Bytes := 1, Trees := 0, Blobs := 0 } false,
          Event.closeCancel,
          Event.onDone { Files := 0, Dirs := 0, Bytes := 1, Trees := 0, Blobs := 0 } false,
          Event.onUpdate { Files := 0, Dirs := 0, Bytes := 1, Trees := 0, Blobs := 0 } true
        ]).filter Event.isClose = [Event.closeCancel] ∧
      ([Event.onUpdate { Files := 0, Dirs := 0, Bytes := 1, Trees := 0, Blobs := 0 } false,
          Event.closeCancel,
          Event.onDone { Files := 0, Dirs := 0, Bytes := 1, Trees := 0, Blobs := 0 } false,
          Event.onUpdate { Files := 0, Dirs := 0, Bytes := 1, Trees := 0, Blobs := 0 } true
        ]).filter Event.isOnDone =
        [Event.onDone q.cur false]) :=
  ⟨rfl, rfl, rfl, by decide, by decide, rfl,
    C8_close_and_ondone_once runningCb [Op.report oneByte, Op.done, Op.tick]
      rfl rfl rfl (by decide) (by decide) _ _ rfl⟩

/-- C9: any interleaving of `N` concurrent callers each performing `M`
calls `Report(Stat{Bytes: 1})` is, the calls being identical and each add
atomic under the counter lock, the sequence of `N*M` such atomic reports;
executed on a running instance with a zeroed accumulator it yields
`Current().Bytes = N*M` (assumed below the uint64 wrap) with no lost
updates. -/
theorem C9_concurrent_bytes (p : ProgressState) (N M : Nat)
    (hrun : p.running = true) (hcur : p.cur = Stat.zero) (hNM : N * M < U64) :
    ∃ pf evs,
      exec (some p) (List.replicate (N * M) (Op.report oneByte)) = .ok (some pf, evs) ∧
      Progress.Current (some pf) =
        .ok { Files := 0, Dirs := 0, Bytes := N * M, Trees := 0, Blobs := 0 } := by
  obtain ⟨evs, hevs⟩ := exec_reports (List.replicate (N * M) oneByte) p hrun
  rw [hcur] at hevs
  rw [List.map_replicate] at hevs
  refine ⟨_, evs, hevs, ?_⟩
  obtain ⟨f, d2, b, t, bl⟩ := foldl_add_spec (List.replicate (N * M) oneByte) Stat.zero
    (by norm_num [Stat.zero, U64]) (by norm_num [Stat.zero, U64])
    (by norm_num [Stat.zero, U64])
  show Except.ok ((List.replicate (N * M) oneByte).foldl Stat.add Stat.zero) = _
  congr 1
  ext
  · rw [f]; simp [Stat.zero, oneByte, U64]
  · rw [d2]; simp [Stat.zero, oneByte, U64]
  · rw [b]
    simp only [Stat.zero, List.map_replicate, List.sum_replicate, smul_eq_mul,
      Nat.zero_add, oneByte, Nat.mul_one]
    exact Nat.mod_eq_of_lt hNM
  · rw [t]; simp [Stat.zero]
  · rw [bl]; simp [Stat.zero]

/-- C9 witness: two producers of three one-byte reports each. -/
theorem C9_concurrent_bytes_witness :
    runningP.running = true ∧ runningP.cur = Stat.zero ∧ 2 * 3 < U64 ∧
    (∃ pf evs,
      exec (some runningP) (List.replicate (2 * 3) (Op.report oneByte)) = .ok (some pf, evs) ∧
      Progress.Current (some pf) =
        .ok { Files := 0, Dirs := 0, Bytes := 2 * 3, Trees := 0, Blobs := 0 }) :=
  ⟨rfl, rfl, by decide, C9_concurrent_bytes runningP 2 3 rfl rfl (by decide)⟩

end Restic
